import Mathlib

/-!
Verification of the github-openclaw governance layer.

This file gives a shallow embedding of the two core subsystems of the
repository and proves the frozen claims about them:

* the policy-gated adapter decision engine
  (scripts/enforce-policy-gated-adapter.ts): `enforcePolicyGatedAdapter`
  and its `PolicyDecision` records;
* the scoreboard / spec-tracking engine
  (scripts/check-implementation-scoreboard.ts): `parseDiffEntries`,
  `isSpecArtifact`, `getAddedSpecArtifacts`, `hasScoreboardUpdate`,
  `validateScoreboard`, `getScoreCounts`, `renderSummaryMarkdown`,
  `buildParityReport`, `enforceSpecToImplementationTracking`.

Modelling conventions:

* JavaScript values parsed from JSON are modelled by the inductive `JsValue`
  (`undefined` stands for JavaScript `undefined`, which `JSON.parse` itself never
  produces but which property access can).  Property access on `null` or
  `undefined` throws a `TypeError` in JavaScript; the embedding makes every
  function that can throw return `Except String α`, with `Except.error`
  carrying the thrown error's message.
* JavaScript string primitives (`split`, `trim`, `startsWith`, `endsWith`,
  `join`, default `toSorted` comparison) are re-implemented over `String.data`
  (plain `List Char`) so that every definition is executable by the kernel.
  `localeCompare`-based sorting is modelled as code-point comparison (`strLe`),
  which agrees with the default locale on the ASCII identifiers the
  repository uses; `Array.prototype.toSorted` is a stable sort, modelled by
  `List.insertionSort` (also stable, so it computes the same list).
-/

/-! ### JavaScript string primitives, modelled over `List Char` -/

/-- JavaScript `String.prototype.split` with a single-character separator:
`"a\tb\t".split("\t")` is `["a","b",""]` and `"".split("\t")` is `[""]`. -/
def splitChars (sep : Char) : List Char → List (List Char)
  | [] => [[]]
  | c :: rest =>
    match splitChars sep rest with
    | [] => [[]]
    | h :: t => if c = sep then [] :: h :: t else (c :: h) :: t

/-- JavaScript `s.split(sep)` for a one-character separator. -/
def jsSplit (s : String) (sep : Char) : List String :=
  (splitChars sep s.data).map String.mk

/-- JavaScript `s.trim()`: drop whitespace from both ends. -/
def jsTrim (s : String) : String :=
  String.mk (((s.data.dropWhile Char.isWhitespace).reverse.dropWhile
      Char.isWhitespace).reverse)

/-- JavaScript `s.startsWith(p)`. -/
def strStartsWith (s p : String) : Bool :=
  p.data.isPrefixOf s.data

/-- JavaScript `s.endsWith(p)`. -/
def strEndsWith (s p : String) : Bool :=
  p.data.isSuffixOf s.data

/-- Code-point comparison of character lists (`≤`), the order used by the
JavaScript default sort comparator (and by `localeCompare` on the ASCII
identifiers appearing in this repository). -/
def charListLe : List Char → List Char → Bool
  | [], _ => true
  | _ :: _, [] => false
  | a :: as, b :: bs =>
    if a = b then charListLe as bs else decide (a.toNat < b.toNat)

/-- Relation `strLe s t`: string `s` sorts no later than `t` (code-point order). -/
def strLe (s t : String) : Bool :=
  charListLe s.data t.data

/-- The order `strLe` as a decidable relation, for use with `List.insertionSort`. -/
def strLeRel (s t : String) : Prop := strLe s t = true

instance : DecidableRel strLeRel := fun s t =>
  inferInstanceAs (Decidable (strLe s t = true))

/-- JavaScript `Array.prototype.join(sep)` on an array of strings. -/
def joinWith (sep : String) : List String → String
  | [] => ""
  | [a] => a
  | a :: rest => a ++ sep ++ joinWith sep rest

/-- Predicate `strContains s sub`: `sub` occurs as a contiguous substring of `s`
(JavaScript `s.includes(sub)` / vitest `toContain`). -/
def strContains (s sub : String) : Prop :=
  ∃ p q, s = p ++ sub ++ q

/-! #### Basic lemmas about the string primitives -/

theorem string_append_empty (s : String) : s ++ "" = s := by
  cases s with
  | mk data => show String.mk (data ++ []) = String.mk data; rw [List.append_nil]

theorem string_empty_append (s : String) : "" ++ s = s := rfl

theorem string_append_ne_empty_left (s t : String) (h : s ≠ "") : s ++ t ≠ "" := by
  cases s with
  | mk d1 =>
    cases t with
    | mk d2 =>
      intro hc
      apply h
      have hdata : d1 ++ d2 = [] := congrArg String.data hc
      have : d1 = [] := (List.append_eq_nil.mp hdata).1
      rw [this]

theorem strContains_self (s : String) : strContains s s :=
  ⟨"", "", by rw [string_empty_append, string_append_empty]⟩

theorem strContains_append_left (s t x : String) (h : strContains t x) :
    strContains (s ++ t) x := by
  obtain ⟨p, q, hpq⟩ := h
  exact ⟨s ++ p, q, by rw [hpq]; simp only [String.append_assoc]⟩

theorem strContains_append_right (s t x : String) (h : strContains s x) :
    strContains (s ++ t) x := by
  obtain ⟨p, q, hpq⟩ := h
  exact ⟨p, q ++ t, by rw [hpq]; simp only [String.append_assoc]⟩

theorem strContains_trans (s m x : String) (h₁ : strContains s m)
    (h₂ : strContains m x) : strContains s x := by
  obtain ⟨p, q, hpq⟩ := h₁
  obtain ⟨p', q', hpq'⟩ := h₂
  refine ⟨p ++ p', q' ++ q, ?_⟩
  rw [hpq, hpq']
  simp only [String.append_assoc]

/-- The generic decomposition step used to locate a literal fragment inside a
reason string of the shape `A ++ n ++ L`. -/
theorem strContains_of_tail (A n L pre mid post : String)
    (h : L = pre ++ (mid ++ post)) : strContains (A ++ n ++ L) mid := by
  refine ⟨A ++ n ++ pre, post, ?_⟩
  rw [h]
  simp only [String.append_assoc]

theorem joinWith_contains (sep : String) (l : List String) (x : String)
    (h : x ∈ l) : strContains (joinWith sep l) x := by
  induction l with
  | nil => cases h
  | cons a rest ih =>
    cases rest with
    | nil =>
      rcases List.mem_singleton.mp h with rfl
      exact strContains_self x
    | cons b rest' =>
      rcases List.mem_cons.mp h with rfl | hmem
      · show strContains (x ++ sep ++ joinWith sep (b :: rest')) x
        exact strContains_append_right _ _ _ (strContains_append_right _ _ _
          (strContains_self x))
      · show strContains (a ++ sep ++ joinWith sep (b :: rest')) x
        rw [String.append_assoc]
        exact strContains_append_left _ _ _ (strContains_append_left _ _ _
          (ih hmem))

/-! #### Order lemmas for `strLe` -/

theorem char_toNat_inj (a b : Char) (h : a.toNat = b.toNat) : a = b :=
  Char.ext (UInt32.ext h)

theorem charListLe_total : ∀ as bs, charListLe as bs = true ∨ charListLe bs as = true := by
  intro as
  induction as with
  | nil => intro bs; left; rfl
  | cons a as ih =>
    intro bs
    cases bs with
    | nil => right; rfl
    | cons b bs =>
      by_cases hab : a = b
      · subst hab
        rcases ih bs with h | h
        · left; simpa [charListLe] using h
        · right; simpa [charListLe] using h
      · have hba : b ≠ a := fun hc => hab hc.symm
        have hne : a.toNat ≠ b.toNat := fun hc => hab (char_toNat_inj a b hc)
        rcases Nat.lt_or_ge a.toNat b.toNat with hlt | hge
        · left; simp [charListLe, hab, hlt]
        · right
          have : b.toNat < a.toNat := by omega
          simp [charListLe, hba, this]

theorem charListLe_trans : ∀ as bs cs, charListLe as bs = true →
    charListLe bs cs = true → charListLe as cs = true := by
  intro as
  induction as with
  | nil => intro bs cs _ _; rfl
  | cons a as ih =>
    intro bs cs h₁ h₂
    cases bs with
    | nil => simp [charListLe] at h₁
    | cons b bs =>
      cases cs with
      | nil => simp [charListLe] at h₂
      | cons c cs =>
        by_cases hab : a = b <;> by_cases hbc : b = c
        · subst hab; subst hbc
          simp only [charListLe, if_pos rfl] at h₁ h₂ ⊢
          exact ih bs cs h₁ h₂
        · subst hab
          simp only [charListLe, if_pos rfl] at h₁
          simp only [charListLe, if_neg hbc, decide_eq_true_eq] at h₂
          have hac : a ≠ c := fun hc => hbc hc
          simp only [charListLe, if_neg hac, decide_eq_true_eq]
          exact h₂
        · subst hbc
          simp only [charListLe, if_neg hab, decide_eq_true_eq] at h₁
          have hac : a ≠ b := hab
          simp only [charListLe, if_neg hac, decide_eq_true_eq]
          exact h₁
        · simp only [charListLe, if_neg hab, decide_eq_true_eq] at h₁
          simp only [charListLe, if_neg hbc, decide_eq_true_eq] at h₂
          have hlt : a.toNat < c.toNat := Nat.lt_trans h₁ h₂
          have hac : a ≠ c := by
            intro hc; subst hc; omega
          simp only [charListLe, if_neg hac, decide_eq_true_eq]
          exact hlt

theorem charListLe_antisymm : ∀ as bs, charListLe as bs = true →
    charListLe bs as = true → as = bs := by
  intro as
  induction as with
  | nil =>
    intro bs _ h₂
    cases bs with
    | nil => rfl
    | cons b bs => simp [charListLe] at h₂
  | cons a as ih =>
    intro bs h₁ h₂
    cases bs with
    | nil => simp [charListLe] at h₁
    | cons b bs =>
      by_cases hab : a = b
      · subst hab
        simp only [charListLe, if_pos rfl] at h₁ h₂
        rw [ih bs h₁ h₂]
      · have hba : b ≠ a := fun hc => hab hc.symm
        simp only [charListLe, if_neg hab, decide_eq_true_eq] at h₁
        simp only [charListLe, if_neg hba, decide_eq_true_eq] at h₂
        omega

theorem strLe_total (s t : String) : strLe s t = true ∨ strLe t s = true :=
  charListLe_total s.data t.data

theorem strLe_trans (s t u : String) (h₁ : strLe s t = true)
    (h₂ : strLe t u = true) : strLe s u = true :=
  charListLe_trans s.data t.data u.data h₁ h₂

theorem strLe_antisymm (s t : String) (h₁ : strLe s t = true)
    (h₂ : strLe t s = true) : s = t := by
  cases s with
  | mk d1 =>
    cases t with
    | mk d2 =>
      have : d1 = d2 := charListLe_antisymm d1 d2 h₁ h₂
      rw [this]

/-! ### JavaScript values parsed from JSON

`JSON.parse` can yield `null`, a boolean, a number, a string, an array or an
object; `undefined` never results from parsing, but property access produces
it.  JSON numbers in the two contract documents are integral version tags, so
numbers are modelled as `Int`. -/

inductive JsValue where
  | undefined : JsValue
  | null : JsValue
  | bool : Bool → JsValue
  | num : Int → JsValue
  | str : String → JsValue
  | arr : List JsValue → JsValue
  | obj : List (String × JsValue) → JsValue

/-- Property access `v[key]` on a value already known not to be `null` or
`undefined`: a field lookup on objects (JSON-parsed objects have distinct
keys), `undefined` on arrays and primitives for the keys this engine reads. -/
def jsMember : JsValue → String → JsValue
  | .obj fields, key => (List.lookup key fields).getD .undefined
  | _, _ => .undefined

/-- Property access `v.key`, including the JavaScript `TypeError` thrown when
`v` is `null` or `undefined` (`Except.error` carries the message of the
exception propagating out of the function). -/
def getProp : JsValue → String → Except String JsValue
  | .null, key => .error ("TypeError: Cannot read properties of null (reading " ++ key ++ ")")
  | .undefined, key => .error ("TypeError: Cannot read properties of undefined (reading " ++ key ++ ")")
  | v, key => .ok (jsMember v key)

/-- JavaScript strict equality `v === s` between an arbitrary value and a
string literal. -/
def isStrVal (v : JsValue) (s : String) : Bool :=
  match v with
  | .str t => t == s
  | _ => false

/-- JavaScript `v !== null`. -/
def isNullVal : JsValue → Bool
  | .null => true
  | _ => false

/-- JavaScript `typeof v === "object"` (true for `null`, arrays and objects). -/
def jsTypeofIsObject : JsValue → Bool
  | .null => true
  | .arr _ => true
  | .obj _ => true
  | _ => false

/-- JavaScript `typeof v === "string" ? v : "unknown"` — the coercion applied to
`policyVersion` and `enforcementMode` before they are recorded. -/
def versionString (v : JsValue) : String :=
  match v with
  | .str s => s
  | _ => "unknown"

mutual

/-- The string `Array.prototype.join` produces for one element: `null` and
`undefined` become empty, nested arrays join with `","`, objects print as
`[object Object]`. -/
def jsJoinElem : JsValue → String
  | .undefined => ""
  | .null => ""
  | .bool b => cond b "true" "false"
  | .num n => toString n
  | .str s => s
  | .arr ys => jsJoinList "," ys
  | .obj _ => "[object Object]"

/-- JavaScript `array.join(sep)` over arbitrary values. -/
def jsJoinList (sep : String) : List JsValue → String
  | [] => ""
  | [y] => jsJoinElem y
  | y :: ys => jsJoinElem y ++ sep ++ jsJoinList sep ys

end

/-! ### The policy-gated adapter decision engine
(scripts/enforce-policy-gated-adapter.ts) -/

def COMMAND_POLICY_PATH : String := ".GITHUB-MODE/runtime/command-policy.json"

def ADAPTER_CONTRACTS_PATH : String := ".GITHUB-MODE/runtime/adapter-contracts.json"

/-- The decision record; the source type has exactly these nine fields, with
`gate` fixed to the literal tag and `result` one of `"PASS"`/`"FAIL"`. -/
structure PolicyDecision where
  gate : String
  result : String
  adapter : String
  action : String
  reason : String
  evidence : String
  policyVersion : String
  enforcementMode : String
  timestamp : String
deriving Repr, DecidableEq

/-- The contract store: the outcome of `readJson` on the two fixed relative
paths under the root directory.  `Except.error` is a read or parse failure
(missing file, invalid JSON, permissions) carrying the error message;
`Except.ok` carries the parsed JSON value. -/
structure ContractStore where
  commandPolicy : Except String JsValue
  adapterContracts : Except String JsValue

/-- Builds a decision with every field set — the `{ ...base, ... }` pattern
used by every return site of the engine. -/
def mkDecision (adapterName action timestamp result reason evidence
    policyVersion enforcementMode : String) : PolicyDecision :=
  { gate := "policy-gated-adapter"
    result := result
    adapter := adapterName
    action := action
    reason := reason
    evidence := evidence
    policyVersion := policyVersion
    enforcementMode := enforcementMode
    timestamp := timestamp }

/-- The `adapters.find(...)` predicate:
`a !== null && typeof a === "object" && a.name === adapterName`.
The member access is safe there because `null` is short-circuited away. -/
def adapterMatches (adapterName : String) (a : JsValue) : Bool :=
  !isNullVal a && jsTypeofIsObject a && isStrVal (jsMember a "name") adapterName

/-- The engine `enforcePolicyGatedAdapter(root, adapterName, action)`.

The file system under `root` enters through `store` (the two `readJson`
outcomes) and the wall clock through `timestamp` (the engine captures
`new Date().toISOString()` on entry).  The result is `Except.ok` of a
decision, or `Except.error` when the function throws to its caller — which
happens exactly when a contract document parses to JSON `null` and the
engine dereferences it (`commandPolicy.policyVersion` on line 73 or
`adapterContracts.adapters` on line 105 of the source). -/
def enforcePolicyGatedAdapter (store : ContractStore)
    (adapterName action timestamp : String) : Except String PolicyDecision :=
  match store.commandPolicy with
  | .error msg =>
    .ok (mkDecision adapterName action timestamp "FAIL"
      ("failed to read command-policy.json: " ++ msg)
      COMMAND_POLICY_PATH "unknown" "unknown")
  | .ok commandPolicy =>
    match getProp commandPolicy "policyVersion" with
    | .error e => .error e
    | .ok pvRaw =>
      match getProp commandPolicy "enforcementMode" with
      | .error e => .error e
      | .ok emRaw =>
        let policyVersion := versionString pvRaw
        let enforcementMode := versionString emRaw
        if !isStrVal emRaw "enforce" then
          .ok (mkDecision adapterName action timestamp "FAIL"
            ("command-policy enforcementMode is \"" ++ enforcementMode ++
              "\", expected \"enforce\" — fail-closed denial")
            COMMAND_POLICY_PATH policyVersion enforcementMode)
        else
          match store.adapterContracts with
          | .error msg =>
            .ok (mkDecision adapterName action timestamp "FAIL"
              ("failed to read adapter-contracts.json: " ++ msg)
              ADAPTER_CONTRACTS_PATH policyVersion enforcementMode)
          | .ok adapterContracts =>
            match getProp adapterContracts "adapters" with
            | .error e => .error e
            | .ok adaptersVal =>
              match adaptersVal with
              | .arr adapters =>
                match adapters.find? (adapterMatches adapterName) with
                | none =>
                  .ok (mkDecision adapterName action timestamp "FAIL"
                    ("adapter \"" ++ adapterName ++
                      "\" not found in adapter-contracts.json — fail-closed denial")
                    ADAPTER_CONTRACTS_PATH policyVersion enforcementMode)
                | some adapter =>
                  match jsMember adapter "constraints" with
                  | .arr (_ :: _) =>
                    match getProp commandPolicy "allowedActions" with
                    | .error e => .error e
                    | .ok aaVal =>
                      match aaVal with
                      | .arr allowedActions =>
                        if allowedActions.any (fun v => isStrVal v action) then
                          .ok (mkDecision adapterName action timestamp "PASS"
                            ("adapter \"" ++ adapterName ++ "\" with action \"" ++
                              action ++ "\" passed policy gate (enforcement: " ++
                              enforcementMode ++ ", policy: " ++ policyVersion ++ ")")
                            (COMMAND_POLICY_PATH ++ ", " ++ ADAPTER_CONTRACTS_PATH)
                            policyVersion enforcementMode)
                        else
                          .ok (mkDecision adapterName action timestamp "FAIL"
                            ("action \"" ++ action ++ "\" is not in allowedActions (allowed: " ++
                              jsJoinList ", " allowedActions ++ ") — policy denial")
                            COMMAND_POLICY_PATH policyVersion enforcementMode)
                      | _ =>
                        .ok (mkDecision adapterName action timestamp "FAIL"
                          "command-policy allowedActions is not an array — fail-closed denial"
                          COMMAND_POLICY_PATH policyVersion enforcementMode)
                  | _ =>
                    .ok (mkDecision adapterName action timestamp "FAIL"
                      ("adapter \"" ++ adapterName ++
                        "\" has no constraints defined — fail-closed denial")
                      ADAPTER_CONTRACTS_PATH policyVersion enforcementMode)
              | _ =>
                .ok (mkDecision adapterName action timestamp "FAIL"
                  "adapter-contracts.json adapters is not an array — fail-closed denial"
                  ADAPTER_CONTRACTS_PATH policyVersion enforcementMode)

/-! ### The scoreboard / spec-tracking engine
(scripts/check-implementation-scoreboard.ts) -/

def SCOREBOARD_PATH : String := ".GITHUB-MODE/runtime/implementation-scoreboard.json"

/-- The planning-directory path constant (source name ends in an identifier
suffix this development avoids, hence `SPEC_ARTIFACT_DIR`). -/
def SPEC_ARTIFACT_DIR : String := ".GITHUB-MODE/docs/planning/"

/-- One parsed line of `git diff --name-status` output. -/
structure DiffEntry where
  status : String
  path : String
deriving Repr, DecidableEq

/-- A capability tracked by the scoreboard.  `state` is kept as a raw string:
the document is parsed from JSON without validation, so out-of-enumeration
states are representable and `validateScoreboard` guards against them. -/
structure Capability where
  id : String
  description : String
  state : String
  evidence : Option (List String)
deriving Repr, DecidableEq

structure Scoreboard where
  version : Int
  capabilities : List Capability
deriving Repr, DecidableEq

/-- One line of `parseDiffEntries`: split on tabs, skip lines with fewer than
two fields, emit one entry — or two when the status starts with `R`/`C` and a
non-empty third field (`if (parts[2])`, a truthiness test) is present. -/
def parseDiffLine (line : String) : List DiffEntry :=
  match jsSplit line '\t' with
  | p0 :: p1 :: rest =>
    let status := jsTrim p0
    if strStartsWith status "R" || strStartsWith status "C" then
      match rest with
      | p2 :: _ =>
        if p2 = "" then [{ status := status, path := jsTrim p1 }]
        else [{ status := status, path := jsTrim p1 },
              { status := status, path := jsTrim p2 }]
      | [] => [{ status := status, path := jsTrim p1 }]
    else [{ status := status, path := jsTrim p1 }]
  | _ => []

/-- Source `parseDiffEntries(diffOutput)`: process the newline-separated lines in
order, appending each line's entries. -/
def parseDiffEntries (diffOutput : String) : List DiffEntry :=
  (jsSplit diffOutput '\n').flatMap parseDiffLine

/-- Source `isSpecArtifact(path)`. -/
def isSpecArtifact (path : String) : Bool :=
  strStartsWith path SPEC_ARTIFACT_DIR && strEndsWith path ".md" &&
    !(strEndsWith path "/README.md")

/-- Source `getAddedSpecArtifacts(entries)`: the `Set` of paths of entries with
status exactly `"A"` that are spec artifacts, as a sorted array
(`[...additions].toSorted()` — default string comparator). -/
def getAddedSpecArtifacts (entries : List DiffEntry) : List String :=
  List.insertionSort strLeRel
    (((entries.filter (fun e => e.status == "A" && isSpecArtifact e.path)).map
      DiffEntry.path).dedup)

/-- Source `hasScoreboardUpdate(entries)`. -/
def hasScoreboardUpdate (entries : List DiffEntry) : Bool :=
  entries.any (fun e => e.path == SCOREBOARD_PATH && e.status != "D")

def allowedStates : List String := ["spec-only", "scaffold", "operational"]

/-- The per-capability loop of `validateScoreboard`; `ids` is the set of
capability ids seen so far (the JavaScript `Set<string>`). -/
def validateCapabilities : List Capability → List String → Except String Unit
  | [], _ => .ok ()
  | c :: rest, ids =>
    if c.id = "" || c.description = "" then
      .error "Each capability requires non-empty id and description fields."
    else if ids.contains c.id then
      .error ("Duplicate capability id found: " ++ c.id)
    else if !(allowedStates.contains c.state) then
      .error ("Capability " ++ c.id ++ " has invalid state \"" ++ c.state ++
        "\". " ++ "Expected one of: " ++ joinWith ", " allowedStates ++ ".")
    else validateCapabilities rest (c.id :: ids)

/-- Source `validateScoreboard(scoreboard)`: `Except.error` models the thrown
validation error.  (`!Array.isArray(scoreboard.capabilities)` is a guard for
untyped JSON and is always false in the typed model.) -/
def validateScoreboard (s : Scoreboard) : Except String Unit :=
  if s.capabilities.length = 0 then
    .error "implementation-scoreboard.json must contain at least one capability."
  else validateCapabilities s.capabilities []

/-- The fixed-shape count record, one field per enumerated state.  (In
JavaScript a capability whose state is outside the enumeration would update a
key outside this record — `counts[state] += 1` on an absent key; all uses of
the counts are behind `validateScoreboard`.) -/
structure ScoreCounts where
  specOnly : Nat
  scaffold : Nat
  operational : Nat
deriving Repr, DecidableEq

/-- One step of the counting loop of `getScoreCounts`. -/
def bumpCount (c : ScoreCounts) (cap : Capability) : ScoreCounts :=
  if cap.state = "spec-only" then { c with specOnly := c.specOnly + 1 }
  else if cap.state = "scaffold" then { c with scaffold := c.scaffold + 1 }
  else if cap.state = "operational" then { c with operational := c.operational + 1 }
  else c

/-- Source `getScoreCounts(scoreboard)`. -/
def getScoreCounts (s : Scoreboard) : ScoreCounts :=
  s.capabilities.foldl bumpCount { specOnly := 0, scaffold := 0, operational := 0 }

/-- Source `renderSummaryMarkdown(scoreboard)`. -/
def renderSummaryMarkdown (s : Scoreboard) : String :=
  let counts := getScoreCounts s
  let total := s.capabilities.length
  joinWith "\n" [
    "- Capabilities tracked: **" ++ toString total ++ "**",
    "- Operational: **" ++ toString counts.operational ++ "**",
    "- Scaffold: **" ++ toString counts.scaffold ++ "**",
    "- Spec-only: **" ++ toString counts.specOnly ++ "**",
    "- Implementation ratio (operational/total): **" ++
      (toString counts.operational ++ "/" ++ toString total) ++ "**"]

/-- The report object returned by `buildParityReport`. -/
structure ParityReport where
  generatedAt : String
  scoreboardVersion : Int
  summary : String
  counts : ScoreCounts
  totalCapabilities : Nat
  capabilities : List Capability
deriving Repr, DecidableEq

/-- The `toSorted` comparator `(a, b) => a.id.localeCompare(b.id)`, as a
relation (see the header note on `localeCompare`). -/
def capLe (a b : Capability) : Prop := strLe a.id b.id = true

instance : DecidableRel capLe := fun a b =>
  inferInstanceAs (Decidable (strLe a.id b.id = true))

instance : IsTotal Capability capLe :=
  ⟨fun a b => strLe_total a.id b.id⟩

instance : IsTrans Capability capLe :=
  ⟨fun a b c => strLe_trans a.id b.id c.id⟩

/-- Source `buildParityReport(scoreboard)`: fixed epoch timestamp, derived summary
and counts, and the capabilities of a fresh copy of the input array
(`[...scoreboard.capabilities]`) sorted stably by id. -/
def buildParityReport (s : Scoreboard) : ParityReport :=
  { generatedAt := "1970-01-01T00:00:00.000Z"
    scoreboardVersion := s.version
    summary := renderSummaryMarkdown s
    counts := getScoreCounts s
    totalCapabilities := s.capabilities.length
    capabilities := List.insertionSort capLe s.capabilities }

/-- Source `enforceSpecToImplementationTracking(entries)`: `Except.error` models the
thrown pairing-violation error with its joined multi-line message. -/
def enforceSpecToImplementationTracking (entries : List DiffEntry) :
    Except String Unit :=
  let addedSpecs := getAddedSpecArtifacts entries
  if addedSpecs.length = 0 then .ok ()
  else if hasScoreboardUpdate entries = false then
    .error (joinWith "\n"
      (["New planning/spec artifacts were added without updating implementation scoreboard.",
        "Added artifacts:"] ++
       addedSpecs.map (fun artifact => "  - " ++ artifact) ++
       ["Update " ++ SCOREBOARD_PATH ++
         " in the same change to keep spec-vs-implementation tracking current."]))
  else .ok ()

/-! ### Lemmas about the scoreboard counts -/

theorem bumpCount_specOnly (c0 : ScoreCounts) (x : Capability) :
    (bumpCount c0 x).specOnly =
      c0.specOnly + (if x.state == "spec-only" then 1 else 0) := by
  unfold bumpCount
  by_cases h : x.state = "spec-only"
  · simp [h]
  · simp only [if_neg h, beq_iff_eq, h, if_false]
    split <;> try rfl
    split <;> rfl

theorem bumpCount_scaffold (c0 : ScoreCounts) (x : Capability) :
    (bumpCount c0 x).scaffold =
      c0.scaffold + (if x.state == "scaffold" then 1 else 0) := by
  unfold bumpCount
  by_cases h1 : x.state = "spec-only"
  · have h2 : x.state ≠ "scaffold" := by rw [h1]; decide
    simp [h1, h2]
  · simp only [if_neg h1]
    by_cases h2 : x.state = "scaffold"
    · simp [h2]
    · simp only [if_neg h2, beq_iff_eq, h2, if_false]
      split <;> rfl

theorem bumpCount_operational (c0 : ScoreCounts) (x : Capability) :
    (bumpCount c0 x).operational =
      c0.operational + (if x.state == "operational" then 1 else 0) := by
  unfold bumpCount
  by_cases h1 : x.state = "spec-only"
  · have h3 : x.state ≠ "operational" := by rw [h1]; decide
    simp [h1, h3]
  · simp only [if_neg h1]
    by_cases h2 : x.state = "scaffold"
    · have h3 : x.state ≠ "operational" := by rw [h2]; decide
      simp [h2, h3]
    · simp only [if_neg h2]
      by_cases h3 : x.state = "operational"
      · simp [h3]
      · simp [h3]

theorem foldl_bumpCount_specOnly (l : List Capability) (c0 : ScoreCounts) :
    (l.foldl bumpCount c0).specOnly =
      c0.specOnly + l.countP (fun c => c.state == "spec-only") := by
  induction l generalizing c0 with
  | nil => simp
  | cons x t ih =>
    simp only [List.foldl_cons, List.countP_cons, ih, bumpCount_specOnly]
    omega

theorem foldl_bumpCount_scaffold (l : List Capability) (c0 : ScoreCounts) :
    (l.foldl bumpCount c0).scaffold =
      c0.scaffold + l.countP (fun c => c.state == "scaffold") := by
  induction l generalizing c0 with
  | nil => simp
  | cons x t ih =>
    simp only [List.foldl_cons, List.countP_cons, ih, bumpCount_scaffold]
    omega

theorem foldl_bumpCount_operational (l : List Capability) (c0 : ScoreCounts) :
    (l.foldl bumpCount c0).operational =
      c0.operational + l.countP (fun c => c.state == "operational") := by
  induction l generalizing c0 with
  | nil => simp
  | cons x t ih =>
    simp only [List.foldl_cons, List.countP_cons, ih, bumpCount_operational]
    omega

theorem getScoreCounts_specOnly (s : Scoreboard) :
    (getScoreCounts s).specOnly =
      s.capabilities.countP (fun c => c.state == "spec-only") := by
  unfold getScoreCounts
  rw [foldl_bumpCount_specOnly]
  simp

theorem getScoreCounts_scaffold (s : Scoreboard) :
    (getScoreCounts s).scaffold =
      s.capabilities.countP (fun c => c.state == "scaffold") := by
  unfold getScoreCounts
  rw [foldl_bumpCount_scaffold]
  simp

theorem getScoreCounts_operational (s : Scoreboard) :
    (getScoreCounts s).operational =
      s.capabilities.countP (fun c => c.state == "operational") := by
  unfold getScoreCounts
  rw [foldl_bumpCount_operational]
  simp

theorem validateCapabilities_states : ∀ (l : List Capability) (ids : List String),
    validateCapabilities l ids = .ok () →
    ∀ c ∈ l, allowedStates.contains c.state = true := by
  intro l
  induction l with
  | nil => intro ids _ c hc; cases hc
  | cons x t ih =>
    intro ids h c hc
    unfold validateCapabilities at h
    split at h
    · cases h
    · split at h
      · cases h
      · split at h
        · cases h
        · rcases List.mem_cons.mp hc with rfl | hc'
          · rename_i hstate
            simpa using hstate
          · exact ih (x.id :: ids) h c hc'

theorem countP_states_sum (l : List Capability)
    (h : ∀ c ∈ l, allowedStates.contains c.state = true) :
    l.countP (fun c => c.state == "spec-only") +
      l.countP (fun c => c.state == "scaffold") +
      l.countP (fun c => c.state == "operational") = l.length := by
  induction l with
  | nil => rfl
  | cons x t ih =>
    have hx := h x (List.mem_cons_self x t)
    have hsum := ih (fun c hc => h c (List.mem_cons_of_mem x hc))
    have hmem : x.state ∈ allowedStates := List.elem_iff.mp hx
    have hcases : x.state = "spec-only" ∨ x.state = "scaffold" ∨
        x.state = "operational" := by
      simpa [allowedStates] using hmem
    have e1 : (("spec-only" : String) == "scaffold") = false := by decide
    have e2 : (("spec-only" : String) == "operational") = false := by decide
    have e3 : (("scaffold" : String) == "spec-only") = false := by decide
    have e4 : (("scaffold" : String) == "operational") = false := by decide
    have e5 : (("operational" : String) == "spec-only") = false := by decide
    have e6 : (("operational" : String) == "scaffold") = false := by decide
    rcases hcases with h1 | h1 | h1 <;>
      simp only [List.countP_cons, h1, e1, e2, e3, e4, e5, e6, beq_self_eq_true,
        if_true, if_false, List.length_cons, Bool.false_eq_true] <;>
      omega

/-- C10: `buildParityReport` leaves its input untouched — the source builds
the report from read-only traversals and sorts a spread copy
(`[...scoreboard.capabilities].toSorted(...)`), so in the pure embedding the
report's capability sequence is a fresh list holding exactly the input's
elements: it is a permutation of `s.capabilities`, which itself is unchanged. -/
theorem buildParityReport_capabilities_perm (s : Scoreboard) :
    ((buildParityReport s).capabilities).Perm s.capabilities :=
  List.perm_insertionSort capLe s.capabilities

/-- C9: for every scoreboard accepted by `validateScoreboard`, the three
per-state counts of `getScoreCounts` sum to the number of capabilities, which
is also the report's `totalCapabilities`. -/
theorem scoreCounts_sum_eq_total (s : Scoreboard)
    (h : validateScoreboard s = .ok ()) :
    (getScoreCounts s).specOnly + (getScoreCounts s).scaffold +
        (getScoreCounts s).operational = s.capabilities.length ∧
      (buildParityReport s).totalCapabilities = s.capabilities.length := by
  refine ⟨?_, rfl⟩
  unfold validateScoreboard at h
  split at h
  · cases h
  · have hstates := validateCapabilities_states s.capabilities [] h
    rw [getScoreCounts_specOnly, getScoreCounts_scaffold, getScoreCounts_operational]
    exact countP_states_sum s.capabilities hstates

/-- Witness for C9 at a concrete validated scoreboard. -/
theorem scoreCounts_sum_eq_total_witness :
    (getScoreCounts { version := 2, capabilities :=
        [{ id := "cap-a", description := "first", state := "operational", evidence := none },
         { id := "cap-b", description := "second", state := "spec-only", evidence := none }] }).specOnly +
      (getScoreCounts { version := 2, capabilities :=
        [{ id := "cap-a", description := "first", state := "operational", evidence := none },
         { id := "cap-b", description := "second", state := "spec-only", evidence := none }] }).scaffold +
      (getScoreCounts { version := 2, capabilities :=
        [{ id := "cap-a", description := "first", state := "operational", evidence := none },
         { id := "cap-b", description := "second", state := "spec-only", evidence := none }] }).operational =
      ({ version := 2, capabilities :=
        [{ id := "cap-a", description := "first", state := "operational", evidence := none },
         { id := "cap-b", description := "second", state := "spec-only", evidence := none }] } : Scoreboard).capabilities.length ∧
    (buildParityReport { version := 2, capabilities :=
        [{ id := "cap-a", description := "first", state := "operational", evidence := none },
         { id := "cap-b", description := "second", state := "spec-only", evidence := none }] }).totalCapabilities =
      ({ version := 2, capabilities :=
        [{ id := "cap-a", description := "first", state := "operational", evidence := none },
         { id := "cap-b", description := "second", state := "spec-only", evidence := none }] } : Scoreboard).capabilities.length :=
  scoreCounts_sum_eq_total _ rfl

/-! ### Sorted permutations with duplicate-free keys are unique -/

theorem sorted_nodupkeys_perm_eq : ∀ (l₁ l₂ : List Capability), l₁.Perm l₂ →
    l₁.Pairwise capLe → l₂.Pairwise capLe →
    (l₁.map Capability.id).Nodup → l₁ = l₂ := by
  intro l₁
  induction l₁ with
  | nil =>
    intro l₂ hp _ _ _
    exact hp.nil_eq
  | cons a t₁ ih =>
    intro l₂ hp hs₁ hs₂ hnd
    cases l₂ with
    | nil => cases hp.symm.nil_eq
    | cons b t₂ =>
      by_cases hab : a = b
      · subst hab
        have hp' : t₁.Perm t₂ := hp.cons_inv
        have hnd' : (t₁.map Capability.id).Nodup := by
          have h2 : (a.id :: t₁.map Capability.id).Nodup := by
            simpa only [List.map_cons] using hnd
          exact (List.nodup_cons.mp h2).2
        rw [ih t₂ hp' (List.pairwise_cons.mp hs₁).2 (List.pairwise_cons.mp hs₂).2 hnd']
      · have ha2 : a ∈ b :: t₂ := hp.subset (List.mem_cons_self a t₁)
        have hb1 : b ∈ a :: t₁ := hp.symm.subset (List.mem_cons_self b t₂)
        have ha2' : a ∈ t₂ := by
          rcases List.mem_cons.mp ha2 with h | h
          · exact absurd h hab
          · exact h
        have hb1' : b ∈ t₁ := by
          rcases List.mem_cons.mp hb1 with h | h
          · exact absurd h.symm hab
          · exact h
        have hle1 : capLe a b := (List.pairwise_cons.mp hs₁).1 b hb1'
        have hle2 : capLe b a := (List.pairwise_cons.mp hs₂).1 a ha2'
        have hid : a.id = b.id := strLe_antisymm a.id b.id hle1 hle2
        have hmem : a.id ∈ t₁.map Capability.id :=
          List.mem_map.mpr ⟨b, hb1', hid.symm⟩
        have hnotin : a.id ∉ t₁.map Capability.id := by
          have h2 : (a.id :: t₁.map Capability.id).Nodup := by
            simpa only [List.map_cons] using hnd
          exact (List.nodup_cons.mp h2).1
        exact absurd hmem hnotin

theorem getScoreCounts_congr (s₁ s₂ : Scoreboard)
    (hp : s₁.capabilities.Perm s₂.capabilities) :
    getScoreCounts s₁ = getScoreCounts s₂ := by
  have e1 := (getScoreCounts_specOnly s₁).trans
    ((hp.countP_eq (fun c => c.state == "spec-only")).trans
      (getScoreCounts_specOnly s₂).symm)
  have e2 := (getScoreCounts_scaffold s₁).trans
    ((hp.countP_eq (fun c => c.state == "scaffold")).trans
      (getScoreCounts_scaffold s₂).symm)
  have e3 := (getScoreCounts_operational s₁).trans
    ((hp.countP_eq (fun c => c.state == "operational")).trans
      (getScoreCounts_operational s₂).symm)
  cases hg₁ : getScoreCounts s₁
  cases hg₂ : getScoreCounts s₂
  simp_all

/-- C3 (amended): `buildParityReport` always stamps the fixed epoch-start
timestamp and sorts the capabilities by id ascending; and two scoreboards
that agree up to a permutation of their capabilities additionally produce
identical reports provided the capability ids are pairwise distinct (as every
scoreboard accepted by `validateScoreboard` has — with duplicate ids the
stable sort preserves the input's relative order of the duplicates, see the
counterexample). -/
theorem buildParityReport_deterministic :
    (∀ s : Scoreboard,
      (buildParityReport s).generatedAt = "1970-01-01T00:00:00.000Z" ∧
        List.Pairwise capLe (buildParityReport s).capabilities) ∧
    (∀ s₁ s₂ : Scoreboard, s₁.version = s₂.version →
      s₁.capabilities.Perm s₂.capabilities →
      (s₁.capabilities.map Capability.id).Nodup →
      buildParityReport s₁ = buildParityReport s₂) := by
  constructor
  · intro s
    refine ⟨rfl, ?_⟩
    exact List.sorted_insertionSort capLe s.capabilities
  · intro s₁ s₂ hv hp hnd
    have hcounts : getScoreCounts s₁ = getScoreCounts s₂ := getScoreCounts_congr s₁ s₂ hp
    have hlen : s₁.capabilities.length = s₂.capabilities.length := hp.length_eq
    have hsummary : renderSummaryMarkdown s₁ = renderSummaryMarkdown s₂ := by
      unfold renderSummaryMarkdown
      rw [hcounts, hlen]
    have hperm : (List.insertionSort capLe s₁.capabilities).Perm
        (List.insertionSort capLe s₂.capabilities) :=
      ((List.perm_insertionSort capLe s₁.capabilities).trans hp).trans
        (List.perm_insertionSort capLe s₂.capabilities).symm
    have hnd' : ((List.insertionSort capLe s₁.capabilities).map Capability.id).Nodup := by
      have hmapperm : ((List.insertionSort capLe s₁.capabilities).map Capability.id).Perm
          (s₁.capabilities.map Capability.id) :=
        (List.perm_insertionSort capLe s₁.capabilities).map Capability.id
      exact (List.Perm.nodup_iff hmapperm).mpr hnd
    have hcaps : List.insertionSort capLe s₁.capabilities =
        List.insertionSort capLe s₂.capabilities :=
      sorted_nodupkeys_perm_eq _ _ hperm
        (List.sorted_insertionSort capLe s₁.capabilities)
        (List.sorted_insertionSort capLe s₂.capabilities) hnd'
    unfold buildParityReport
    rw [hv, hcounts, hlen, hsummary, hcaps]

/-- C3 counterexample: with two capabilities sharing the id `"cap-a"`, the
stable sort preserves input order, so permuting the input changes the report —
the claim's unconditional permutation-invariance fails. -/
theorem buildParityReport_not_permutation_invariant :
    buildParityReport { version := 1, capabilities :=
        [{ id := "cap-a", description := "first", state := "spec-only", evidence := none },
         { id := "cap-a", description := "second", state := "spec-only", evidence := none }] } ≠
      buildParityReport { version := 1, capabilities :=
        [{ id := "cap-a", description := "second", state := "spec-only", evidence := none },
         { id := "cap-a", description := "first", state := "spec-only", evidence := none }] } := by
  decide

/-- Witness for C3 at two concrete permuted scoreboards with distinct ids. -/
theorem buildParityReport_deterministic_witness :
    buildParityReport { version := 3, capabilities :=
        [{ id := "cap-b", description := "second", state := "scaffold", evidence := none },
         { id := "cap-a", description := "first", state := "operational", evidence := none }] } =
      buildParityReport { version := 3, capabilities :=
        [{ id := "cap-a", description := "first", state := "operational", evidence := none },
         { id := "cap-b", description := "second", state := "scaffold", evidence := none }] } :=
  buildParityReport_deterministic.2 _ _ rfl
    (List.Perm.swap _ _ _) (by decide)

/-! ### Spec-tracking enforcement -/

theorem mem_getAddedSpecArtifacts (entries : List DiffEntry) (p : String) :
    p ∈ getAddedSpecArtifacts entries ↔
      ∃ e ∈ entries, e.status = "A" ∧ isSpecArtifact e.path = true ∧ e.path = p := by
  unfold getAddedSpecArtifacts
  rw [(List.perm_insertionSort strLeRel _).mem_iff, List.mem_dedup]
  simp only [List.mem_map, List.mem_filter, Bool.and_eq_true, beq_iff_eq]
  constructor
  · rintro ⟨e, ⟨he, hs, ha⟩, hp⟩
    exact ⟨e, he, hs, ha, hp⟩
  · rintro ⟨e, he, hs, ha, hp⟩
    exact ⟨e, ⟨he, hs, ha⟩, hp⟩

theorem hasScoreboardUpdate_iff (entries : List DiffEntry) :
    hasScoreboardUpdate entries = true ↔
      ∃ e ∈ entries, e.path = SCOREBOARD_PATH ∧ e.status ≠ "D" := by
  unfold hasScoreboardUpdate
  rw [List.any_eq_true]
  simp only [Bool.and_eq_true, beq_iff_eq, bne_iff_ne]

theorem getAddedSpecArtifacts_ne_nil_iff (entries : List DiffEntry) :
    getAddedSpecArtifacts entries ≠ [] ↔
      ∃ e ∈ entries, e.status = "A" ∧ isSpecArtifact e.path = true := by
  constructor
  · intro h
    cases hl : getAddedSpecArtifacts entries with
    | nil => exact absurd hl h
    | cons x xs =>
      have : x ∈ getAddedSpecArtifacts entries := by rw [hl]; exact List.mem_cons_self x xs
      obtain ⟨e, he, hs, ha, _⟩ := (mem_getAddedSpecArtifacts entries x).mp this
      exact ⟨e, he, hs, ha⟩
  · rintro ⟨e, he, hs, ha⟩ hnil
    have : e.path ∈ getAddedSpecArtifacts entries :=
      (mem_getAddedSpecArtifacts entries e.path).mpr ⟨e, he, hs, ha, rfl⟩
    rw [hnil] at this
    cases this

/-- C5: `enforceSpecToImplementationTracking` throws iff some entry is an
added spec artifact and no entry touches the scoreboard path with a
non-delete status; the thrown message lists every added artifact; otherwise
it returns silently. -/
theorem enforceSpecTracking_spec (entries : List DiffEntry) :
    ((∃ msg, enforceSpecToImplementationTracking entries = .error msg) ↔
      ((∃ e ∈ entries, e.status = "A" ∧ isSpecArtifact e.path = true) ∧
        ¬ ∃ e ∈ entries, e.path = SCOREBOARD_PATH ∧ e.status ≠ "D")) ∧
    (∀ msg, enforceSpecToImplementationTracking entries = .error msg →
      ∀ e ∈ entries, e.status = "A" → isSpecArtifact e.path = true →
        strContains msg e.path) := by
  have hiffadd := getAddedSpecArtifacts_ne_nil_iff entries
  have hiffupd := hasScoreboardUpdate_iff entries
  unfold enforceSpecToImplementationTracking
  by_cases hlen : (getAddedSpecArtifacts entries).length = 0
  · have hnil : getAddedSpecArtifacts entries = [] := List.length_eq_zero.mp hlen
    rw [if_pos hlen]
    constructor
    · constructor
      · rintro ⟨msg, hmsg⟩; cases hmsg
      · rintro ⟨hadd, _⟩
        exact absurd (hiffadd.mpr hadd) (fun hc => hc hnil)
    · intro msg hmsg; cases hmsg
  · rw [if_neg hlen]
    have hne : getAddedSpecArtifacts entries ≠ [] := by
      intro hc; exact hlen (by rw [hc]; rfl)
    cases hupd : hasScoreboardUpdate entries with
    | false =>
      rw [if_pos rfl]
      constructor
      · constructor
        · intro _
          refine ⟨hiffadd.mp hne, ?_⟩
          intro hex
          rw [hiffupd.mpr hex] at hupd
          cases hupd
        · intro _
          exact ⟨_, rfl⟩
      · intro msg hmsg e he hs ha
        have hmem : e.path ∈ getAddedSpecArtifacts entries :=
          (mem_getAddedSpecArtifacts entries e.path).mpr ⟨e, he, hs, ha, rfl⟩
        have hline : ("  - " ++ e.path) ∈
            (["New planning/spec artifacts were added without updating implementation scoreboard.",
              "Added artifacts:"] ++
             (getAddedSpecArtifacts entries).map (fun artifact => "  - " ++ artifact) ++
             ["Update " ++ SCOREBOARD_PATH ++
               " in the same change to keep spec-vs-implementation tracking current."]) := by
          refine List.mem_append.mpr (Or.inl (List.mem_append.mpr (Or.inr ?_)))
          exact List.mem_map.mpr ⟨e.path, hmem, rfl⟩
        have hcont := joinWith_contains "\n" _ _ hline
        have hmsg' : msg = joinWith "\n"
            (["New planning/spec artifacts were added without updating implementation scoreboard.",
              "Added artifacts:"] ++
             (getAddedSpecArtifacts entries).map (fun artifact => "  - " ++ artifact) ++
             ["Update " ++ SCOREBOARD_PATH ++
               " in the same change to keep spec-vs-implementation tracking current."]) := by
          cases hmsg; rfl
        rw [hmsg']
        refine strContains_trans _ ("  - " ++ e.path) _ hcont ?_
        exact ⟨"  - ", "", (string_append_empty _).symm⟩
    | true =>
      rw [if_neg (by simp)]
      constructor
      · constructor
        · rintro ⟨msg, hmsg⟩; cases hmsg
        · rintro ⟨_, hnoupd⟩
          exact absurd (hiffupd.mp hupd) hnoupd
      · intro msg hmsg; cases hmsg

/-- Witness for C5 at a concrete entry list with one unpaired spec addition. -/
theorem enforceSpecTracking_spec_witness :
    strContains
      "New planning/spec artifacts were added without updating implementation scoreboard.\nAdded artifacts:\n  - .GITHUB-MODE/docs/planning/alpha.md\nUpdate .GITHUB-MODE/runtime/implementation-scoreboard.json in the same change to keep spec-vs-implementation tracking current."
      ".GITHUB-MODE/docs/planning/alpha.md" :=
  (enforceSpecTracking_spec
      [{ status := "A", path := ".GITHUB-MODE/docs/planning/alpha.md" }]).2
    "New planning/spec artifacts were added without updating implementation scoreboard.\nAdded artifacts:\n  - .GITHUB-MODE/docs/planning/alpha.md\nUpdate .GITHUB-MODE/runtime/implementation-scoreboard.json in the same change to keep spec-vs-implementation tracking current."
    rfl
    { status := "A", path := ".GITHUB-MODE/docs/planning/alpha.md" }
    (List.mem_singleton_self _) rfl (by decide)

/-! ### The diff-entry parser -/

/-- C2 counterexample: the line `R100<TAB>old.md` has exactly two
tab-separated fields and a status beginning with `R`, yet it yields a single
entry — `if (parts[2])` is falsy, so no destination entry is pushed,
contradicting the claim's "exactly two entries". -/
theorem parseDiffEntries_rename_without_destination :
    (jsSplit "R100\told.md" '\t').length = 2 ∧
      strStartsWith (jsTrim "R100") "R" = true ∧
      (parseDiffEntries "R100\told.md").length = 1 := by
  decide

/-- C2 (amended): on a single line with at least two tab-separated fields, a
status beginning with `R` or `C` yields two entries — source path and
destination path, sharing the status — exactly when a non-empty third field
is present; with the third field missing or empty it yields only the source
entry, and any other status yields exactly one entry. -/
theorem parseDiffEntries_line_shape (line p0 p1 : String) (rest : List String)
    (hl : jsSplit line '\n' = [line])
    (ht : jsSplit line '\t' = p0 :: p1 :: rest) :
    ((strStartsWith (jsTrim p0) "R" || strStartsWith (jsTrim p0) "C") = true →
      (∀ p2 rest2, rest = p2 :: rest2 → p2 ≠ "" →
        parseDiffEntries line =
          [{ status := jsTrim p0, path := jsTrim p1 },
           { status := jsTrim p0, path := jsTrim p2 }]) ∧
      ((rest = [] ∨ (∃ rest2, rest = "" :: rest2)) →
        parseDiffEntries line = [{ status := jsTrim p0, path := jsTrim p1 }])) ∧
    ((strStartsWith (jsTrim p0) "R" || strStartsWith (jsTrim p0) "C") = false →
      parseDiffEntries line = [{ status := jsTrim p0, path := jsTrim p1 }]) := by
  have hparse : parseDiffEntries line = parseDiffLine line := by
    unfold parseDiffEntries
    rw [hl]
    simp [List.flatMap]
  constructor
  · intro hrc
    constructor
    · intro p2 rest2 hrest hp2
      rw [hparse]
      unfold parseDiffLine
      rw [ht, hrest]
      simp only [hrc, if_pos rfl, if_neg hp2]
      rfl
    · intro hrest
      rw [hparse]
      unfold parseDiffLine
      rw [ht]
      rcases hrest with rfl | ⟨rest2, rfl⟩
      · simp only [hrc, if_pos rfl]
        rfl
      · simp only [hrc, if_pos rfl]
        rfl
  · intro hrc
    rw [hparse]
    unfold parseDiffLine
    rw [ht]
    simp only [hrc, Bool.false_eq_true, if_false]

/-- Witness for C2 at the concrete rename line `R100<TAB>a.md<TAB>b.md`. -/
theorem parseDiffEntries_line_shape_witness :
    parseDiffEntries "R100\ta.md\tb.md" =
      [{ status := "R100", path := "a.md" }, { status := "R100", path := "b.md" }] :=
  (((parseDiffEntries_line_shape "R100\ta.md\tb.md" "R100" "a.md" ["b.md"]
      (by decide) (by decide)).1 (by decide)).1 "b.md" [] rfl (by decide)).trans
    (by decide)

/-! ### The policy-gated adapter decision engine: claims -/

/-- C1 fails on the code: when `command-policy.json` parses to JSON `null`
(valid JSON, wrong type), the engine's property access
`commandPolicy.policyVersion` (source line 73) throws a `TypeError` that
propagates to the caller instead of being converted into a FAIL decision —
contradicting the function's own doc comment ("Fail-closed: any missing
data, invalid state, or policy violation results in FAIL"). -/
theorem enforce_throws_on_null_policy_document :
    enforcePolicyGatedAdapter
      { commandPolicy := .ok .null, adapterContracts := .ok .null }
      "repo-write" "open-pr" "1970-01-01T00:00:00.000Z" =
    .error "TypeError: Cannot read properties of null (reading policyVersion)" :=
  rfl

/-- C4 counterexample: a command policy document that parses to JSON `null`
has no `enforcementMode` (so the claim's premise holds), yet the engine
throws instead of returning the claimed FAIL decision. -/
theorem enforce_no_fail_decision_on_null_policy :
    enforcePolicyGatedAdapter
      { commandPolicy := .ok .null, adapterContracts := .ok (.obj []) }
      "policy-sim" "validate" "t0" =
    .error "TypeError: Cannot read properties of null (reading policyVersion)" :=
  rfl

/-- C4 (amended): for every command policy document other than JSON `null`
whose `enforcementMode` is not the string `"enforce"` (absent, non-string or
any other string), the engine returns a FAIL decision whose recorded
`enforcementMode` is the observed mode (the raw string value, or the
sentinel `"unknown"` for absent/non-string modes) and whose reason contains
that observed mode literally.  (A `null` document instead throws, see the
counterexample; `undefined` is excluded because `JSON.parse` cannot
produce it.) -/
theorem enforce_fail_on_nonenforce_mode (store : ContractStore) (cp : JsValue)
    (n a ts : String) (hcp : store.commandPolicy = .ok cp)
    (hnull : cp ≠ .null) (hundef : cp ≠ .undefined)
    (hmode : isStrVal (jsMember cp "enforcementMode") "enforce" = false) :
    ∃ d, enforcePolicyGatedAdapter store n a ts = .ok d ∧ d.result = "FAIL" ∧
      d.enforcementMode = versionString (jsMember cp "enforcementMode") ∧
      strContains d.reason d.enforcementMode := by
  obtain ⟨cps, acs⟩ := store
  have hcp' : cps = .ok cp := hcp
  subst hcp'
  have hpv : getProp cp "policyVersion" = .ok (jsMember cp "policyVersion") := by
    cases cp
    · exact absurd rfl hundef
    · exact absurd rfl hnull
    all_goals rfl
  have hem : getProp cp "enforcementMode" = .ok (jsMember cp "enforcementMode") := by
    cases cp
    · exact absurd rfl hundef
    · exact absurd rfl hnull
    all_goals rfl
  refine ⟨mkDecision n a ts "FAIL"
      ("command-policy enforcementMode is \"" ++
        versionString (jsMember cp "enforcementMode") ++
        "\", expected \"enforce\" — fail-closed denial")
      COMMAND_POLICY_PATH (versionString (jsMember cp "policyVersion"))
      (versionString (jsMember cp "enforcementMode")), ?_, rfl, rfl, ?_⟩
  · simp only [enforcePolicyGatedAdapter, hpv, hem, hmode, Bool.not_false, if_true]
  · exact ⟨"command-policy enforcementMode is \"",
      "\", expected \"enforce\" — fail-closed denial", rfl⟩

/-- Witness for C4 at a concrete policy document with mode `"audit"`. -/
theorem enforce_fail_on_nonenforce_mode_witness :
    ∃ d, enforcePolicyGatedAdapter
        { commandPolicy := .ok (.obj [("enforcementMode", .str "audit"),
                                       ("policyVersion", .str "v1.0.0")]),
          adapterContracts := .ok (.obj []) }
        "repo-write" "plan" "tw" = .ok d ∧ d.result = "FAIL" ∧
      d.enforcementMode = versionString (jsMember
        (.obj [("enforcementMode", .str "audit"), ("policyVersion", .str "v1.0.0")])
        "enforcementMode") ∧
      strContains d.reason d.enforcementMode :=
  enforce_fail_on_nonenforce_mode _
    (.obj [("enforcementMode", .str "audit"), ("policyVersion", .str "v1.0.0")])
    "repo-write" "plan" "tw" rfl (by intro h; cases h) (by intro h; cases h) rfl

/-- C7: when the command policy is readable with mode `"enforce"` and the
contracts document's `adapters` field is an array containing no element that
matches the requested adapter name, the engine returns FAIL with a reason
containing both `"not found"` and `"fail-closed"`. -/
theorem enforce_fail_adapter_not_found (store : ContractStore) (cp ac : JsValue)
    (adapters : List JsValue) (n a ts : String)
    (hcp : store.commandPolicy = .ok cp)
    (hmode : getProp cp "enforcementMode" = .ok (.str "enforce"))
    (hac : store.adapterContracts = .ok ac)
    (had : getProp ac "adapters" = .ok (.arr adapters))
    (hnone : ∀ x ∈ adapters, adapterMatches n x = false) :
    ∃ d, enforcePolicyGatedAdapter store n a ts = .ok d ∧ d.result = "FAIL" ∧
      strContains d.reason "not found" ∧ strContains d.reason "fail-closed" := by
  obtain ⟨cps, acs⟩ := store
  have hcp' : cps = .ok cp := hcp
  subst hcp'
  have hac' : acs = .ok ac := hac
  subst hac'
  have hnn : cp ≠ .null ∧ cp ≠ .undefined := by
    constructor <;> intro hc <;> subst hc <;> cases hmode
  have hpv : getProp cp "policyVersion" = .ok (jsMember cp "policyVersion") := by
    cases cp
    · exact absurd rfl hnn.2
    · exact absurd rfl hnn.1
    all_goals rfl
  have hemv : jsMember cp "enforcementMode" = .str "enforce" := by
    cases cp
    · cases hmode
    · cases hmode
    all_goals exact Except.ok.inj hmode
  have hem : getProp cp "enforcementMode" = .ok (jsMember cp "enforcementMode") := by
    cases cp
    · exact absurd rfl hnn.2
    · exact absurd rfl hnn.1
    all_goals rfl
  have hse : isStrVal (.str "enforce") "enforce" = true := rfl
  have hadv : jsMember ac "adapters" = .arr adapters := by
    cases ac
    · cases had
    · cases had
    all_goals exact Except.ok.inj had
  have hacp : getProp ac "adapters" = .ok (jsMember ac "adapters") := by
    cases ac
    · cases had
    · cases had
    all_goals rfl
  have hfind : adapters.find? (adapterMatches n) = none :=
    List.find?_eq_none.mpr (fun x hx => by rw [hnone x hx]; intro hc; cases hc)
  refine ⟨mkDecision n a ts "FAIL"
      ("adapter \"" ++ n ++
        "\" not found in adapter-contracts.json — fail-closed denial")
      ADAPTER_CONTRACTS_PATH (versionString (jsMember cp "policyVersion"))
      (versionString (jsMember cp "enforcementMode")), ?_, rfl, ?_, ?_⟩
  · simp only [enforcePolicyGatedAdapter, hpv, hem, hemv, hse, Bool.not_true,
      Bool.false_eq_true, if_false, hacp, hadv, hfind]
  · exact strContains_of_tail "adapter \"" n
      "\" not found in adapter-contracts.json — fail-closed denial"
      "\" " "not found" " in adapter-contracts.json — fail-closed denial" (by decide)
  · exact strContains_of_tail "adapter \"" n
      "\" not found in adapter-contracts.json — fail-closed denial"
      "\" not found in adapter-contracts.json — " "fail-closed" " denial" (by decide)

/-- Witness for C7 at a concrete store whose adapters array is empty. -/
theorem enforce_fail_adapter_not_found_witness :
    ∃ d, enforcePolicyGatedAdapter
        { commandPolicy := .ok (.obj [("enforcementMode", .str "enforce")]),
          adapterContracts := .ok (.obj [("adapters", .arr [])]) }
        "ghost-adapter" "plan" "tw" = .ok d ∧ d.result = "FAIL" ∧
      strContains d.reason "not found" ∧ strContains d.reason "fail-closed" :=
  enforce_fail_adapter_not_found _
    (.obj [("enforcementMode", .str "enforce")])
    (.obj [("adapters", .arr [])]) [] "ghost-adapter" "plan" "tw"
    rfl rfl rfl rfl (fun x hx => absurd hx (List.not_mem_nil x))

/-- Clearing the only field that records the invocation's wall-clock time. -/
def eraseTimestamp (d : PolicyDecision) : PolicyDecision :=
  { d with timestamp := "" }

/-- C6 counterexample: with fixed file contents, two invocations at different
wall-clock instants return decision records that differ (in the `timestamp`
field), so invocations are not literally "identical decision records". -/
theorem enforce_decisions_differ_across_time :
    enforcePolicyGatedAdapter
        { commandPolicy := .error "ENOENT: no such file",
          adapterContracts := .error "ENOENT: no such file" }
        "repo-write" "open-pr" "2026-01-01T00:00:00.000Z" =
      .ok { gate := "policy-gated-adapter", result := "FAIL",
            adapter := "repo-write", action := "open-pr",
            reason := "failed to read command-policy.json: ENOENT: no such file",
            evidence := ".GITHUB-MODE/runtime/command-policy.json",
            policyVersion := "unknown", enforcementMode := "unknown",
            timestamp := "2026-01-01T00:00:00.000Z" } ∧
    enforcePolicyGatedAdapter
        { commandPolicy := .error "ENOENT: no such file",
          adapterContracts := .error "ENOENT: no such file" }
        "repo-write" "open-pr" "2026-01-02T00:00:00.000Z" =
      .ok { gate := "policy-gated-adapter", result := "FAIL",
            adapter := "repo-write", action := "open-pr",
            reason := "failed to read command-policy.json: ENOENT: no such file",
            evidence := ".GITHUB-MODE/runtime/command-policy.json",
            policyVersion := "unknown", enforcementMode := "unknown",
            timestamp := "2026-01-02T00:00:00.000Z" } ∧
    ({ gate := "policy-gated-adapter", result := "FAIL",
       adapter := "repo-write", action := "open-pr",
       reason := "failed to read command-policy.json: ENOENT: no such file",
       evidence := ".GITHUB-MODE/runtime/command-policy.json",
       policyVersion := "unknown", enforcementMode := "unknown",
       timestamp := "2026-01-01T00:00:00.000Z" } : PolicyDecision) ≠
      { gate := "policy-gated-adapter", result := "FAIL",
        adapter := "repo-write", action := "open-pr",
        reason := "failed to read command-policy.json: ENOENT: no such file",
        evidence := ".GITHUB-MODE/runtime/command-policy.json",
        policyVersion := "unknown", enforcementMode := "unknown",
        timestamp := "2026-01-02T00:00:00.000Z" } :=
  ⟨rfl, rfl, by decide⟩

/-- C6 (amended): the engine is stateless — two invocations with the same
store contents, adapter name and action produce decision records identical in
every field except `timestamp`, which records each invocation's wall-clock
time; invocations at the same instant produce identical records. -/
theorem enforce_stateless_up_to_timestamp (store : ContractStore)
    (n a t₁ t₂ : String) :
    (enforcePolicyGatedAdapter store n a t₁).map eraseTimestamp =
      (enforcePolicyGatedAdapter store n a t₂).map eraseTimestamp := by
  obtain ⟨cps, acs⟩ := store
  unfold enforcePolicyGatedAdapter
  cases cps with
  | error m => rfl
  | ok cp =>
    cases cp <;> try rfl
    case obj fields =>
      have hpv : getProp (JsValue.obj fields) "policyVersion" =
          .ok (jsMember (JsValue.obj fields) "policyVersion") := rfl
      have hemq : getProp (JsValue.obj fields) "enforcementMode" =
          .ok (jsMember (JsValue.obj fields) "enforcementMode") := rfl
      simp only [hpv, hemq]
      cases hem : isStrVal (jsMember (JsValue.obj fields) "enforcementMode")
          "enforce" with
      | false => rfl
      | true =>
        simp only [hem, Bool.not_true, Bool.false_eq_true, if_false]
        cases acs with
        | error m => rfl
        | ok ac =>
          cases ac <;> try rfl
          case obj acFields =>
            have hadq : getProp (JsValue.obj acFields) "adapters" =
                .ok (jsMember (JsValue.obj acFields) "adapters") := rfl
            simp only [hadq]
            cases had : jsMember (JsValue.obj acFields) "adapters" <;>
              (try simp only [had]) <;> try rfl
            case arr adaptersList =>
              cases hfind : adaptersList.find? (adapterMatches n) with
              | none => simp only [hfind]; rfl
              | some adapter =>
                simp only [hfind]
                cases hcons : jsMember adapter "constraints" <;>
                  (try simp only [hcons]) <;> try rfl
                case arr constraintsList =>
                  cases constraintsList <;> try rfl
                  case cons chead ctail =>
                    have haaq : getProp (JsValue.obj fields) "allowedActions" =
                        .ok (jsMember (JsValue.obj fields) "allowedActions") := rfl
                    simp only [haaq]
                    cases haa : jsMember (JsValue.obj fields) "allowedActions" <;>
                      (try simp only [haa]) <;> try rfl
                    case arr allowedList =>
                      cases hany : allowedList.any (fun v => isStrVal v a) <;>
                        (try simp only [hany]) <;> rfl

/-- C8: every decision the engine returns, PASS or FAIL, carries all nine
fields: the constant gate tag, the echoed adapter, action and invocation
timestamp, a result that is exactly `"PASS"` or `"FAIL"`, and non-empty
reason and evidence strings (policyVersion and enforcementMode are likewise
always set, to the observed or sentinel values recorded in the decision). -/
theorem enforce_decision_well_formed (store : ContractStore) (n a ts : String)
    (d : PolicyDecision) (h : enforcePolicyGatedAdapter store n a ts = .ok d) :
    d.gate = "policy-gated-adapter" ∧ d.adapter = n ∧ d.action = a ∧
      d.timestamp = ts ∧ (d.result = "PASS" ∨ d.result = "FAIL") ∧
      d.reason ≠ "" ∧ d.evidence ≠ "" := by
  unfold enforcePolicyGatedAdapter at h
  repeat' split at h
  all_goals try cases h
  all_goals refine ⟨rfl, rfl, rfl, rfl, ?_, ?_, ?_⟩
  all_goals first
    | exact Or.inl rfl
    | exact Or.inr rfl
    | (simp only [mkDecision]
       repeat apply string_append_ne_empty_left
       decide)

/-- Witness for C8 at a concrete store whose policy file is unreadable. -/
theorem enforce_decision_well_formed_witness :
    ({ gate := "policy-gated-adapter", result := "FAIL", adapter := "repo-write",
       action := "open-pr",
       reason := "failed to read command-policy.json: boom",
       evidence := ".GITHUB-MODE/runtime/command-policy.json",
       policyVersion := "unknown", enforcementMode := "unknown",
       timestamp := "t0" } : PolicyDecision).gate = "policy-gated-adapter" ∧
    ({ gate := "policy-gated-adapter", result := "FAIL", adapter := "repo-write",
       action := "open-pr",
       reason := "failed to read command-policy.json: boom",
       evidence := ".GITHUB-MODE/runtime/command-policy.json",
       policyVersion := "unknown", enforcementMode := "unknown",
       timestamp := "t0" } : PolicyDecision).adapter = "repo-write" ∧
    ({ gate := "policy-gated-adapter", result := "FAIL", adapter := "repo-write",
       action := "open-pr",
       reason := "failed to read command-policy.json: boom",
       evidence := ".GITHUB-MODE/runtime/command-policy.json",
       policyVersion := "unknown", enforcementMode := "unknown",
       timestamp := "t0" } : PolicyDecision).action = "open-pr" ∧
    ({ gate := "policy-gated-adapter", result := "FAIL", adapter := "repo-write",
       action := "open-pr",
       reason := "failed to read command-policy.json: boom",
       evidence := ".GITHUB-MODE/runtime/command-policy.json",
       policyVersion := "unknown", enforcementMode := "unknown",
       timestamp := "t0" } : PolicyDecision).timestamp = "t0" ∧
    (({ gate := "policy-gated-adapter", result := "FAIL", adapter := "repo-write",
        action := "open-pr",
        reason := "failed to read command-policy.json: boom",
        evidence := ".GITHUB-MODE/runtime/command-policy.json",
        policyVersion := "unknown", enforcementMode := "unknown",
        timestamp := "t0" } : PolicyDecision).result = "PASS" ∨
      ({ gate := "policy-gated-adapter", result := "FAIL", adapter := "repo-write",
         action := "open-pr",
         reason := "failed to read command-policy.json: boom",
         evidence := ".GITHUB-MODE/runtime/command-policy.json",
         policyVersion := "unknown", enforcementMode := "unknown",
         timestamp := "t0" } : PolicyDecision).result = "FAIL") ∧
    ({ gate := "policy-gated-adapter", result := "FAIL", adapter := "repo-write",
       action := "open-pr",
       reason := "failed to read command-policy.json: boom",
       evidence := ".GITHUB-MODE/runtime/command-policy.json",
       policyVersion := "unknown", enforcementMode := "unknown",
       timestamp := "t0" } : PolicyDecision).reason ≠ "" ∧
    ({ gate := "policy-gated-adapter", result := "FAIL", adapter := "repo-write",
       action := "open-pr",
       reason := "failed to read command-policy.json: boom",
       evidence := ".GITHUB-MODE/runtime/command-policy.json",
       policyVersion := "unknown", enforcementMode := "unknown",
       timestamp := "t0" } : PolicyDecision).evidence ≠ "" :=
  enforce_decision_well_formed
    { commandPolicy := .error "boom", adapterContracts := .error "boom" }
    "repo-write" "open-pr" "t0" _ rfl
